import Mathlib

/-!
Verification of the LinkedIn enrichment pipeline (`enrich_linkedin.py`).

The Python source is shallowly embedded: every Python string operation the
script uses (`str.strip`, `str.split`, `str.lower`, `str.capitalize`,
`str.rstrip`, substring tests, `re` patterns) is modelled as an executable
Lean function over `List Char` / `String`, and the script's functions
(`guess_fullname`, `name_matches`, `parse_linkedin_text`, the batch driver
in `main`, the follow-up fetch loop of `search_linkedin`,
`init_remaining` / `write_remaining`) become Lean definitions over those
models.  Regular-expression matching is embedded by a small backtracking
engine (`reM`) whose alternation, laziness and greediness follow Python's
`re` backtracking order, instantiated at the three patterns the script uses.
-/

/-! ## Python string primitives, modelled over `List Char` -/

/-- Python whitespace for `str.strip` / `\s` (ASCII part): space, tab,
newline, carriage return, vertical tab, form feed. -/
def pyWs (c : Char) : Bool :=
  c == ' ' || c == '\t' || c == '\n' || c == '\r' ||
  c == Char.ofNat 11 || c == Char.ofNat 12

/-- ASCII uppercase test, the `[A-Z]` character class. -/
def isUpperAZ (c : Char) : Bool := 'A' ≤ c && c ≤ 'Z'

/-- ASCII lowercase test, the `[a-z]` character class. -/
def isLowerAZ (c : Char) : Bool := 'a' ≤ c && c ≤ 'z'

/-- ASCII letter test, modelling Python `str.isalpha` on ASCII data. -/
def isAlphaAZ (c : Char) : Bool := isUpperAZ c || isLowerAZ c

/-- ASCII digit test, the `\d` class and `str.isdigit`. -/
def isDigit09 (c : Char) : Bool := '0' ≤ c && c ≤ '9'

/-- The `\w` character class (ASCII part): letters, digits, underscore. -/
def isWordChar (c : Char) : Bool := isAlphaAZ c || isDigit09 c || c == '_'

/-- `list.lower()` on characters (ASCII case folding, as `Char.toLower`). -/
def lowerL (l : List Char) : List Char := l.map Char.toLower

/-- Python `s.lower()`. -/
def lowerStr (s : String) : String := String.mk (lowerL s.data)

/-- Python `s.strip()`: drop leading and trailing whitespace. -/
def pyStrip (s : String) : String :=
  String.mk (((s.data.dropWhile pyWs).reverse.dropWhile pyWs).reverse)

/-- Python `s.rstrip("0123456789")`: drop trailing decimal digits. -/
def pyRstripDigits (s : String) : String :=
  String.mk ((s.data.reverse.dropWhile isDigit09).reverse)

/-- Python `s.capitalize()`: first character upper-cased, rest lower-cased. -/
def pyCapitalize (s : String) : String :=
  match s.data with
  | [] => ""
  | c :: cs => String.mk (c.toUpper :: lowerL cs)

/-- Does `hay` start with `needle`?  (Python `str.startswith`.) -/
def startsWithL : List Char → List Char → Bool
  | [], _ => true
  | _ :: _, [] => false
  | a :: as, b :: bs => a == b && startsWithL as bs

/-- Python's `needle in hay` contiguous-substring test. -/
def isSubL (needle : List Char) : List Char → Bool
  | [] => needle.isEmpty
  | c :: t => startsWithL needle (c :: t) || isSubL needle t

/-- `needle` occurs contiguously inside `hay` (specification-side relation
for Python's `in` operator on strings). -/
def SubStr (needle hay : String) : Prop :=
  ∃ a b, hay.data = a ++ needle.data ++ b

/-- Python `s.split()` (no argument): split on whitespace runs, no empty
tokens.  Worker carrying the reversed current token. -/
def splitWsAux : List Char → List Char → List String
  | [], acc => if acc.isEmpty then [] else [String.mk acc.reverse]
  | c :: rest, acc =>
    if pyWs c then
      if acc.isEmpty then splitWsAux rest []
      else String.mk acc.reverse :: splitWsAux rest []
    else splitWsAux rest (c :: acc)

/-- Python `s.split()`. -/
def pySplitWs (s : String) : List String := splitWsAux s.data []

/-- Python `s.split("\n")`: split at every newline, keeping empty pieces. -/
def splitNLAux : List Char → List Char → List (List Char)
  | [], acc => [acc.reverse]
  | c :: rest, acc =>
    if c == '\n' then acc.reverse :: splitNLAux rest []
    else splitNLAux rest (c :: acc)

/-- The suffix of `hay` starting at the first occurrence of `needle`
(`hay[hay.find(needle):]`), or `none` when `hay.find(needle) == -1`. -/
def dropToSub (needle : List Char) : List Char → Option (List Char)
  | [] => if needle.isEmpty then some [] else none
  | c :: t =>
    if startsWithL needle (c :: t) then some (c :: t) else dropToSub needle t

/-! ### Bridging lemmas between the executable tests and `SubStr` -/

theorem startsWithL_iff (n h : List Char) :
    startsWithL n h = true ↔ ∃ b, h = n ++ b := by
  induction n generalizing h with
  | nil => simp [startsWithL]
  | cons a as ih =>
    cases h with
    | nil => simp [startsWithL]
    | cons c t =>
      simp only [startsWithL, Bool.and_eq_true, beq_iff_eq, ih, List.cons_append,
        List.cons.injEq]
      constructor
      · rintro ⟨rfl, b, rfl⟩; exact ⟨b, rfl, rfl⟩
      · rintro ⟨b, rfl, rfl⟩; exact ⟨rfl, b, rfl⟩

theorem isSubL_iff (n h : List Char) :
    isSubL n h = true ↔ ∃ a b, h = a ++ n ++ b := by
  induction h with
  | nil =>
    simp only [isSubL, List.isEmpty_iff]
    constructor
    · rintro rfl; exact ⟨[], [], rfl⟩
    · rintro ⟨a, b, hab⟩
      rcases List.append_eq_nil.mp (List.append_eq_nil.mp hab.symm).1 with ⟨_, h2⟩
      exact h2
  | cons c t ih =>
    simp only [isSubL, Bool.or_eq_true, ih, startsWithL_iff]
    constructor
    · rintro (⟨b, hb⟩ | ⟨a, b, hab⟩)
      · exact ⟨[], b, by simpa using hb⟩
      · exact ⟨c :: a, b, by simp [hab]⟩
    · rintro ⟨a, b, hab⟩
      cases a with
      | nil => exact Or.inl ⟨b, by simpa using hab⟩
      | cons x xs =>
        right
        rcases List.cons_eq_cons.mp hab with ⟨_, h2⟩
        exact ⟨xs, b, by simpa using h2⟩

theorem isSubL_iff_SubStr (needle hay : String) :
    isSubL needle.data hay.data = true ↔ SubStr needle hay :=
  isSubL_iff needle.data hay.data

/-! ## `name_matches` (Candidate Matcher) -/

/-- `name_matches(fullname, title, url="")` from `enrich_linkedin.py`:
lower-case and whitespace-split the name; the first token must occur in the
lowered title, and the last token (empty unless there are at least two
tokens) must be empty or occur in the lowered title or the lowered URL. -/
def name_matches (fullname title url : String) : Bool :=
  let name_parts := pySplitWs (lowerStr fullname)
  let title_lower := lowerStr title
  let url_lower := lowerStr url
  let first := name_parts.headD ""
  let last := if name_parts.length > 1 then name_parts.getLastD "" else ""
  let first_in := isSubL first.data title_lower.data
  let last_in :=
    (last == "") || isSubL last.data title_lower.data ||
      isSubL last.data url_lower.data
  first_in && last_in

/-- The Candidate Matcher rule as the specification states it, written with
the abstract substring relation `SubStr`. -/
def matcher_spec (fullname title url : String) : Prop :=
  let parts := pySplitWs (lowerStr fullname)
  SubStr (parts.headD "") (lowerStr title) ∧
    (parts.length ≤ 1 ∨ SubStr (parts.getLastD "") (lowerStr title) ∨
      SubStr (parts.getLastD "") (lowerStr url))

/-! ## `guess_fullname` (Name Normalizer) -/

/-- An input roster row (`slack.csv`): `fullname`, `email`, `username`. -/
structure Row where
  fullname : String
  email : String
  username : String
deriving DecidableEq

/-- The body of `guess_fullname`'s `for source in [email_prefix, username]`
loop: lower the source, strip trailing digits, and if it extends the first
name by an alphabetic remainder of length > 1, return the improved name. -/
def gfSource (first_lower : List Char) (fullname source : String) :
    Option String :=
  let sl := ((lowerL source.data).reverse.dropWhile isDigit09).reverse
  if startsWithL first_lower sl && decide (first_lower.length < sl.length) then
    let rest := sl.drop first_lower.length
    if rest.all isAlphaAZ && decide (1 < rest.length) then
      some (fullname ++ " " ++ pyCapitalize (String.mk rest))
    else none
  else none

/-- `guess_fullname(row)`: when the stripped fullname is a single word, try
to recover a surname from the email local-part, then the username, then fall
back to treating an alphabetic username of length > 2 as the surname. -/
def guess_fullname (row : Row) : String :=
  let fullname := pyStrip row.fullname
  if fullname.data.contains ' ' then fullname
  else
    let username := pyStrip row.username
    let email := pyStrip row.email
    let email_prefix :=
      if email = "" then "" else String.mk (email.data.takeWhile (fun c => c != '@'))
    let first_lower := lowerL fullname.data
    match gfSource first_lower fullname email_prefix with
    | some r => r
    | none =>
      match gfSource first_lower fullname username with
      | some r => r
      | none =>
        if username ≠ "" ∧ lowerL username.data ≠ first_lower ∧
            username.data.all isAlphaAZ = true ∧ 2 < username.data.length then
          fullname ++ " " ++ pyCapitalize username
        else fullname

/-! ## Claim C2: the Candidate Matcher rule -/

/-- Claim C2: for every full-name, title and URL string, `name_matches`
returns `true` exactly when the lowercased first name token occurs in the
lowercased title, and either the name has at most one token (empty last
token), or the lowercased last token occurs in the lowercased title or in
the lowercased URL. -/
theorem name_matches_iff_spec (fullname title url : String) :
    name_matches fullname title url = true ↔ matcher_spec fullname title url := by
  unfold name_matches matcher_spec
  by_cases hl : (pySplitWs (lowerStr fullname)).length > 1
  · simp only [hl, if_pos, Bool.and_eq_true, Bool.or_eq_true, beq_iff_eq,
      isSubL_iff_SubStr]
    constructor
    · rintro ⟨h1, (hemp | h2) | h3⟩
      · refine ⟨h1, Or.inr (Or.inl ?_)⟩
        rw [hemp]; exact ⟨(lowerStr title).data, [], by simp⟩
      · exact ⟨h1, Or.inr (Or.inl h2)⟩
      · exact ⟨h1, Or.inr (Or.inr h3)⟩
    · rintro ⟨h1, hrest⟩
      refine ⟨h1, ?_⟩
      rcases hrest with hle | h2 | h3
      · omega
      · exact Or.inl (Or.inr h2)
      · exact Or.inr h3
  · simp only [hl, if_neg, Bool.and_eq_true, Bool.or_eq_true, beq_iff_eq,
      isSubL_iff_SubStr]
    constructor
    · rintro ⟨h1, _⟩
      exact ⟨h1, Or.inl (by omega)⟩
    · rintro ⟨h1, _⟩
      exact ⟨h1, Or.inl (Or.inl rfl)⟩

/-! ## Claim C9: degenerate (token-free) names always match -/

/-- Claim C9: when the target name tokenizes to zero tokens (empty or
whitespace-only), `name_matches` returns `true` for every title and URL:
the first token defaults to `""`, a substring of every title, and the last
token defaults to `""`, satisfying the match vacuously. -/
theorem name_matches_of_no_tokens (fullname title url : String)
    (h : pySplitWs (lowerStr fullname) = []) :
    name_matches fullname title url = true := by
  unfold name_matches
  rw [h]
  simp [isSubL_iff]
  exact ⟨[], (lowerStr title).data, rfl⟩

/-- Witness for C9 at the whitespace-only name `"  "`. -/
theorem name_matches_of_no_tokens_witness :
    name_matches "  " "Alice Smith - LinkedIn" "linkedin.com/in/asmith" = true :=
  name_matches_of_no_tokens _ _ _ (by decide)

/-! ## Claim C7: the "Ashvin" scenario for `guess_fullname` -/

/-- Claim C7: on the record with fullname `"Ashvin"`, username `"nihalani"`
and email `"anihalani5@gmail.com"`, `guess_fullname` returns exactly
`"Ashvin Nihalani"` (the email local-part `"anihalani"` does not start with
`"ashvin"`, so the username fallback rule produces the surname). -/
theorem guess_fullname_ashvin :
    guess_fullname ⟨"Ashvin", "anihalani5@gmail.com", "nihalani"⟩ =
      "Ashvin Nihalani" := by decide

/-! ## A backtracking regular-expression engine

The script uses three `re` patterns.  They are embedded with a small
backtracking matcher whose order of exploration follows Python's `re`
module: alternation tries the left branch first, `?` and greedy repetition
prefer consuming more, lazy repetition prefers consuming less.  Repetition
only ever occurs over single-character classes in these patterns, so
repetition nodes carry a character predicate. -/

/-- Capture environment: group index paired with captured characters.
Later captures are consed to the front; lookup takes the first hit. -/
abbrev Caps := List (Nat × List Char)

/-- The captured string of group `i`, `""` when the group is unset
(mirroring `re.findall`'s empty-string convention and the script's
`m.group(i) or ...` use). -/
def capStr (caps : Caps) (i : Nat) : String :=
  match caps.find? (fun p => p.1 == i) with
  | some p => String.mk p.2
  | none => ""

/-- Pattern syntax: literals, single-character classes, sequencing,
alternation, greedy option, greedy / lazy class repetition, groups. -/
inductive RE : Type where
  | lit : List Char → RE
  | one : (Char → Bool) → RE
  | seq : RE → RE → RE
  | alt : RE → RE → RE
  | opt : RE → RE
  | starG : (Char → Bool) → RE
  | starL : (Char → Bool) → RE
  | group : Nat → RE → RE

/-- Backtracking matcher in continuation style.  `reM fuel r s caps k`
tries to match `r` against a prefix of `s`, extending `caps`, and calls the
continuation `k` on the remaining input; the first success in Python's
backtracking order wins.  `fuel` bounds the recursion depth (pattern size
plus characters consumed by repetition), so any fuel of at least
`s.length + pattern size` is exact. -/
def reM : Nat → RE → List Char → Caps →
    (List Char → Caps → Option (List Char × Caps)) → Option (List Char × Caps)
  | 0, _, _, _, _ => none
  | Nat.succ fuel, r, s, caps, k =>
    match r with
    | .lit cs => if startsWithL cs s then k (s.drop cs.length) caps else none
    | .one p =>
      match s with
      | [] => none
      | c :: rest => if p c then k rest caps else none
    | .seq a b => reM fuel a s caps (fun s2 caps2 => reM fuel b s2 caps2 k)
    | .alt a b =>
      match reM fuel a s caps k with
      | some res => some res
      | none => reM fuel b s caps k
    | .opt a =>
      match reM fuel a s caps k with
      | some res => some res
      | none => k s caps
    | .starG p =>
      match s with
      | [] => k s caps
      | c :: rest =>
        if p c then
          match reM fuel (.starG p) rest caps k with
          | some res => some res
          | none => k s caps
        else k s caps
    | .starL p =>
      match k s caps with
      | some res => some res
      | none =>
        match s with
        | [] => none
        | c :: rest => if p c then reM fuel (.starL p) rest caps k else none
    | .group i a =>
      reM fuel a s caps
        (fun s2 caps2 => k s2 ((i, s.take (s.length - s2.length)) :: caps2))

/-- Attempt a match anchored at the start of `s`; on success return the
remaining input and the captures. -/
def reTry (r : RE) (s : List Char) : Option (List Char × Caps) :=
  reM (s.length + 200) r s [] (fun rest caps => some (rest, caps))

/-- `re.search`: try the pattern at each start position, left to right. -/
def reSearchAux (r : RE) : Nat → List Char → Option Caps
  | 0, _ => none
  | Nat.succ fuel, s =>
    match reTry r s with
    | some (_, caps) => some caps
    | none =>
      match s with
      | [] => none
      | _ :: t => reSearchAux r fuel t

/-- `re.search` over a character list. -/
def reSearch (r : RE) (s : List Char) : Option Caps :=
  reSearchAux r (s.length + 1) s

/-- `re.findall`: scan left to right, collecting non-overlapping matches
and resuming after each match (advancing one character on an empty match,
as Python does). -/
def reFindAux (r : RE) : Nat → List Char → List Caps
  | 0, _ => []
  | Nat.succ fuel, s =>
    match reTry r s with
    | some (rest, caps) =>
      caps ::
        (if rest.length < s.length then reFindAux r fuel rest
         else
           match s with
           | [] => []
           | _ :: t => reFindAux r fuel t)
    | none =>
      match s with
      | [] => []
      | _ :: t => reFindAux r fuel t

/-- `re.findall` over a character list. -/
def reFindAll (r : RE) (s : List Char) : List Caps :=
  reFindAux r (s.length + 1) s

/-! ### The three patterns of `enrich_linkedin.py` -/

/-- Sequence a list of patterns. -/
def seqs : List RE → RE
  | [] => .lit []
  | [r] => r
  | r :: rest => .seq r (seqs rest)

/-- A string literal pattern. -/
def strLit (s : String) : RE := .lit s.data

/-- Greedy `p+`. -/
def plusG (p : Char → Bool) : RE := .seq (.one p) (.starG p)

/-- Lazy `p+?`. -/
def plusL (p : Char → Bool) : RE := .seq (.one p) (.starL p)

/-- `.` outside DOTALL mode: any character except newline. -/
def notNL (c : Char) : Bool := c != '\n'

/-- `\d{4}`. -/
def digit4 : RE :=
  seqs [.one isDigit09, .one isDigit09, .one isDigit09, .one isDigit09]

/-- `(?:<[^>]*>|\([^)]*\))`: a markdown link tail or a parenthesised tail
after a bracketed company label. -/
def linkTailRE : RE :=
  .alt (seqs [strLit "<", .starG (fun c => c != '>'), strLit ">"])
    (seqs [strLit "(", .starG (fun c => c != ')'), strLit ")"])

/-- `###\s+(.+?)\s+at\s+(?:\[([^\]]+)\](?:<[^>]*>|\([^)]*\))|([^\n(]+))` —
the shared role-header pattern: group 1 is the title, group 2 a bracketed
(linked) company label, group 3 a plain company. -/
def roleHeadRE : RE :=
  seqs [strLit "###", plusG pyWs, .group 1 (plusL notNL), plusG pyWs,
    strLit "at", plusG pyWs,
    .alt
      (seqs [strLit "[", .group 2 (plusG (fun c => c != ']')), strLit "]",
        linkTailRE])
      (.group 3 (plusG (fun c => c != '\n' && c != '(')))]

/-- The `(Current)`-marked role pattern (first regex in
`parse_linkedin_text`): the role header followed by `\s*\(Current\)`. -/
def currentRE : RE :=
  .seq roleHeadRE (.seq (.starG pyWs) (strLit "(Current)"))

/-- The fallback role pattern used under `## Experience` (second regex in
`parse_linkedin_text`): the bare role header. -/
def fallbackRE : RE := roleHeadRE

/-- `\w+\s+\d{4}`: a month word and a four-digit year. -/
def dateRE : RE := seqs [plusG isWordChar, plusG pyWs, digit4]

/-- The B@B role/tenure pattern (third regex in `parse_linkedin_text`):
`###\s+(.+?)\s+at\s+(?:\[)?Blockchain at Berkeley(?:\])?`
`(?:<[^>]*>|\([^)]*\))?[\s\S]*?(\w+\s+\d{4})\s*-\s*((?:\w+\s+\d{4})|Present)`. -/
def babRE : RE :=
  seqs [strLit "###", plusG pyWs, .group 1 (plusL notNL), plusG pyWs,
    strLit "at", plusG pyWs, .opt (strLit "["),
    strLit "Blockchain at Berkeley", .opt (strLit "]"), .opt linkTailRE,
    .starL (fun _ => true), .group 2 dateRE, .starG pyWs, strLit "-",
    .starG pyWs, .group 3 (.alt dateRE (strLit "Present"))]

/-! ## `parse_linkedin_text` (Profile Text Parser + Organization Role
Extractor) -/

/-- The parser's seven output fields. -/
structure Parsed where
  current_title : String
  current_company : String
  linkedin_headline : String
  location : String
  education : String
  bab_role : String
  bab_years : String
deriving DecidableEq

/-- The non-empty stripped lines of the profile text:
`[l.strip() for l in text.strip().split("\n") if l.strip()]`. -/
def linesOf (text : String) : List String :=
  ((splitNLAux (pyStrip text).data []).map
    (fun l => pyStrip (String.mk l))).filter (fun l => l != "")

/-- `re.sub(r"\s*\(Current\)\s*$", "", s)`: remove a trailing
`(Current)` marker together with the whitespace around it. -/
def stripCurrentTail (s : String) : String :=
  let r := s.data.reverse.dropWhile pyWs
  if startsWithL "(Current)".data.reverse r then
    String.mk (((r.drop 9).dropWhile pyWs).reverse)
  else s

/-- The search for a current role: first the `(Current)`-marked pattern on
the whole text, else the bare role-header pattern on the suffix starting at
`"## Experience"` (skipped when that heading is absent). -/
def currentMatch (text : String) : Option Caps :=
  match reSearch currentRE text.data with
  | some caps => some caps
  | none =>
    match dropToSub "## Experience".data text.data with
    | some suffix => reSearch fallbackRE suffix
    | none => none

/-- Title and company from a role-header match: group 1 stripped, and the
first non-empty of groups 2 and 3 stripped, with any trailing `(Current)`
removed and the result stripped again. -/
def titleCompany : Option Caps → String × String
  | none => ("", "")
  | some caps =>
    (pyStrip (capStr caps 1),
      pyStrip (stripCurrentTail (pyStrip
        (if capStr caps 2 != "" then capStr caps 2 else capStr caps 3))))

/-- Does this line end the profile-summary block
(`re.search("connections|followers", line, re.IGNORECASE)`)? -/
def summaryEnd (line : String) : Bool :=
  isSubL "connections".data (lowerL line.data) ||
    isSubL "followers".data (lowerL line.data)

/-- `re.search(r"\([A-Z]{2}\)\s*$", line)`: the line ends (up to trailing
whitespace) with a parenthesised two-uppercase-letter code. -/
def ccEnds (line : String) : Bool :=
  match line.data.reverse.dropWhile pyWs with
  | ')' :: u2 :: u1 :: '(' :: _ => isUpperAZ u1 && isUpperAZ u2
  | _ => false

/-- `re.sub(r"\s*\([A-Z]{2}\)\s*$", "", line).strip()`. -/
def ccStrip (line : String) : String :=
  pyStrip (String.mk
    (((line.data.reverse.dropWhile pyWs).drop 4).dropWhile pyWs).reverse)

/-- `,` followed by optional whitespace and an ASCII uppercase letter
occurs somewhere in the character list (the `,\s*[A-Z]` tail of the
location pattern). -/
def hasCommaUpper : List Char → Bool
  | [] => false
  | c :: rest =>
    (c == ',' &&
      (match rest.dropWhile pyWs with
       | u :: _ => isUpperAZ u
       | [] => false)) || hasCommaUpper rest

/-- `re.match(r"^[A-Z][a-z]+.*,\s*[A-Z]", line)`: an uppercase letter, a
lowercase letter, then (anywhere later) a comma followed by optional
whitespace and an uppercase letter.  Lines contain no newline, so `.*`
imposes no further constraint. -/
def locMatch (line : String) : Bool :=
  match line.data with
  | c0 :: c1 :: rest => isUpperAZ c0 && isLowerAZ c1 && hasCommaUpper rest
  | _ => false

/-- The location loop over `lines[2:6]`: stop empty at a
connections/followers line, else take a country-code line (code stripped),
else a `City, Region` shaped line not containing `"at "` or `"##"`. -/
def location_scan : List String → String
  | [] => ""
  | line :: rest =>
    if summaryEnd line then ""
    else if ccEnds line then ccStrip line
    else if locMatch line && !isSubL "at ".data line.data &&
        !isSubL "##".data line.data then pyStrip line
    else location_scan rest

/-- The B@B tenure matches of the text as `(title, start, end)` triples
(`re.findall` with the three capture groups of `babRE`). -/
def bab_findall (text : String) : List (String × String × String) :=
  (reFindAll babRE text.data).map
    (fun caps => (capStr caps 1, capStr caps 2, capStr caps 3))

/-- The role/years pair built from the `re.findall` matches: stripped
titles joined with `" / "` in match order; years from the last match's
start to the first match's end (empty pair when there is no match). -/
def babFields : List (String × String × String) → String × String
  | [] => ("", "")
  | m :: ms =>
    (String.intercalate " / " ((m :: ms).map (fun x => pyStrip x.1)),
      ((m :: ms).getLastD m).2.1 ++ " - " ++ m.2.2)

/-- `parse_linkedin_text(text)`: the seven extraction rules of the script,
each independent and best-effort. -/
def parse_linkedin_text (text : String) : Parsed :=
  if text = "" then ⟨"", "", "", "", "", "", ""⟩
  else
    let lines := linesOf text
    let headline := lines.getD 1 ""
    let tc := titleCompany (currentMatch text)
    let location := location_scan ((lines.drop 2).take 4)
    let education :=
      if isSubL "berkeley".data (lowerL text.data) then "UC Berkeley" else ""
    let bab := babFields (bab_findall text)
    ⟨tc.1, tc.2, headline, location, education, bab.1, bab.2⟩

/-! ## Calendar dates for month-year strings -/

/-- Month number of an English three-letter month abbreviation. -/
def monthNum (s : String) : Option Nat :=
  if s = "Jan" then some 1
  else if s = "Feb" then some 2
  else if s = "Mar" then some 3
  else if s = "Apr" then some 4
  else if s = "May" then some 5
  else if s = "Jun" then some 6
  else if s = "Jul" then some 7
  else if s = "Aug" then some 8
  else if s = "Sep" then some 9
  else if s = "Oct" then some 10
  else if s = "Nov" then some 11
  else if s = "Dec" then some 12
  else none

/-- Numeric value of a digit string. -/
def yearNum (l : List Char) : Nat :=
  l.foldl (fun a c => a * 10 + (c.toNat - 48)) 0

/-- Parse a `"Mon YYYY"` date string into `(year, month)`. -/
def parseDate (s : String) : Option (Nat × Nat) :=
  match pySplitWs s with
  | [m, y] =>
    match monthNum m with
    | some mm =>
      if y.data ≠ [] ∧ y.data.all isDigit09 = true then some (yearNum y.data, mm)
      else none
    | none => none
  | _ => none

/-- Calendar order on `(year, month)` pairs. -/
def dateLE (a b : Nat × Nat) : Prop :=
  a.1 < b.1 ∨ (a.1 = b.1 ∧ a.2 ≤ b.2)

instance : ∀ a b, Decidable (dateLE a b) := fun a b => by
  unfold dateLE; exact inferInstance

theorem dateLE_trans {a b c : Nat × Nat} (h1 : dateLE a b) (h2 : dateLE b c) :
    dateLE a c := by
  unfold dateLE at *; omega

/-- Calendar order on optional parsed dates: both parse and compare. -/
def odLE (x y : Option (Nat × Nat)) : Prop :=
  ∃ a b, x = some a ∧ y = some b ∧ dateLE a b

theorem odLE_trans {x y z : Option (Nat × Nat)} (h1 : odLE x y)
    (h2 : odLE y z) : odLE x z := by
  obtain ⟨a, b, hx, hy, hab⟩ := h1
  obtain ⟨b', c, hy', hz, hbc⟩ := h2
  rw [hy] at hy'
  obtain rfl : b = b' := by injection hy'
  exact ⟨a, c, hx, hz, dateLE_trans hab hbc⟩

/-- Along a chain whose later elements' images never exceed the earlier
ones' (a most-recent-first listing), the last element's image is below the
head's. -/
theorem chain_odLE_getLastD {α : Type} (f : α → Option (Nat × Nat)) :
    ∀ (ms : List α) (m b : α),
      List.Chain' (fun a c => odLE (f c) (f a)) (m :: b :: ms) →
      odLE (f ((b :: ms).getLastD b)) (f m) := by
  intro ms
  induction ms with
  | nil =>
    intro m b h
    rw [List.chain'_cons] at h
    simpa using h.1
  | cons c ms' ih =>
    intro m b h
    rw [List.chain'_cons] at h
    have h2 := ih b c h.2
    rw [List.getLastD_cons]
    exact odLE_trans h2 h.1

/-! ## Claims C3 and C4: the Organization Role Extractor -/

theorem parse_bab_eq (text : String) :
    (parse_linkedin_text text).bab_role = (babFields (bab_findall text)).1 ∧
    (parse_linkedin_text text).bab_years = (babFields (bab_findall text)).2 := by
  by_cases ht : text = ""
  · subst ht; exact ⟨rfl, rfl⟩
  · simp [parse_linkedin_text, ht]

/-- The two-role scenario text of the specification: a President tenure
listed first (most recent), then a Member tenure. -/
def c3text : String :=
  "### President at Blockchain at Berkeley\n\nJan 2022 - Dec 2022\n\n### Member at Blockchain at Berkeley\n\nSep 2020 - Dec 2021"

/-- Claim C3: whenever the B@B pattern has at least one match, the parsed
role is all matched titles joined with `" / "` in match order and the year
range is the last match's start paired with the first match's end; on the
President/Member scenario this yields `"President / Member"` and
`"Sep 2020 - Dec 2022"`. -/
theorem bab_role_years_shape :
    (∀ (text : String) (m : String × String × String)
        (ms : List (String × String × String)),
      bab_findall text = m :: ms →
        (parse_linkedin_text text).bab_role =
            String.intercalate " / " ((m :: ms).map (fun x => pyStrip x.1)) ∧
          (parse_linkedin_text text).bab_years =
            ((m :: ms).getLastD m).2.1 ++ " - " ++ m.2.2) ∧
    (parse_linkedin_text c3text).bab_role = "President / Member" ∧
    (parse_linkedin_text c3text).bab_years = "Sep 2020 - Dec 2022" := by
  refine ⟨fun text m ms hf => ?_, by decide, by decide⟩
  have h := parse_bab_eq text
  rw [hf] at h
  simpa [babFields] using h

/-- Witness for C3's quantified part, instantiated at the scenario text. -/
theorem bab_role_years_shape_witness :
    (parse_linkedin_text c3text).bab_role =
      String.intercalate " / "
        ([("President", "Jan 2022", "Dec 2022"),
          ("Member", "Sep 2020", "Dec 2021")].map (fun x => pyStrip x.1)) :=
  (bab_role_years_shape.1 c3text ("President", "Jan 2022", "Dec 2022")
    [("Member", "Sep 2020", "Dec 2021")] (by decide)).1

/-- A text listing the same two tenures oldest-first. -/
def c4text : String :=
  "### Member at Blockchain at Berkeley\n\nSep 2020 - Dec 2021\n\n### President at Blockchain at Berkeley\n\nJan 2022 - Dec 2022"

/-- Counterexample to claim C4: on a text whose tenures are listed
oldest-first, the extractor returns `"Jan 2022 - Dec 2021"`, whose start is
after its end in calendar order, and which is not the calendar-earliest
start (`"Sep 2020"`) paired with the calendar-latest end. -/
theorem bab_years_unordered_cex :
    bab_findall c4text =
      [("Member", "Sep 2020", "Dec 2021"),
        ("President", "Jan 2022", "Dec 2022")] ∧
    (parse_linkedin_text c4text).bab_years = "Jan 2022 - Dec 2021" ∧
    parseDate "Jan 2022" = some (2022, 1) ∧
    parseDate "Dec 2021" = some (2021, 12) ∧
    ¬ dateLE (2022, 1) (2021, 12) := by
  refine ⟨by decide, by decide, by decide, by decide, by decide⟩

/-- Claim C4 as amended: the returned range is the last-listed match's
start to the first-listed match's end, and its start is at most its end in
calendar order PROVIDED the matches are listed most-recent-first (each
later match's start no later than the earlier one's) and the first match's
own tenure is consistent; for arbitrary listing order the bound fails (see
the counterexample). -/
theorem bab_years_ordered (text : String) (m : String × String × String)
    (ms : List (String × String × String))
    (hf : bab_findall text = m :: ms)
    (hchain : List.Chain'
      (fun a c => odLE (parseDate c.2.1) (parseDate a.2.1)) (m :: ms))
    (hfirst : odLE (parseDate m.2.1) (parseDate m.2.2)) :
    (parse_linkedin_text text).bab_years =
      ((m :: ms).getLastD m).2.1 ++ " - " ++ m.2.2 ∧
    odLE (parseDate (((m :: ms).getLastD m).2.1)) (parseDate m.2.2) := by
  constructor
  · have h := (parse_bab_eq text).2
    rw [hf] at h
    simpa [babFields] using h
  · cases ms with
    | nil => simpa using hfirst
    | cons b ms' =>
      have h1 := chain_odLE_getLastD (fun x => parseDate x.2.1) ms' m b hchain
      rw [List.getLastD_cons]
      exact odLE_trans h1 hfirst

/-- A text listing two tenures most-recent-first, for the C4 witness. -/
def c4ordered : String :=
  "### President at Blockchain at Berkeley\n\nJan 2022 - Dec 2022\n\n### Member at Blockchain at Berkeley\n\nSep 2019 - Jun 2021"

/-- Witness for the amended C4 at a most-recent-first text. -/
theorem bab_years_ordered_witness :
    (parse_linkedin_text c4ordered).bab_years = "Sep 2019 - Dec 2022" ∧
    odLE (parseDate "Sep 2019") (parseDate "Dec 2022") := by
  have h := bab_years_ordered c4ordered ("President", "Jan 2022", "Dec 2022")
    [("Member", "Sep 2019", "Jun 2021")] (by decide)
    (List.chain'_cons.mpr
      ⟨⟨(2019, 9), (2022, 1), by decide, by decide, by decide⟩,
        List.chain'_singleton _⟩)
    ⟨(2022, 1), (2022, 12), by decide, by decide, by decide⟩
  exact ⟨h.1.trans (by decide), h.2⟩

/-! ## Claim C6: no Experience heading and no `(Current)` marker -/

theorem dropToSub_none (n : List Char) :
    ∀ l, isSubL n l = false → dropToSub n l = none := by
  intro l
  induction l with
  | nil =>
    intro h
    simp only [isSubL] at h
    simp [dropToSub, h]
  | cons c t ih =>
    intro h
    simp only [isSubL, Bool.or_eq_false_iff] at h
    simp [dropToSub, h.1, ih h.2]

/-- Claim C6: when the `(Current)`-marked pattern finds nothing in the text
and `"## Experience"` does not occur in it, the parser leaves both
`current_title` and `current_company` empty. -/
theorem no_current_no_experience (text : String)
    (h1 : reSearch currentRE text.data = none)
    (h2 : isSubL "## Experience".data text.data = false) :
    (parse_linkedin_text text).current_title = "" ∧
    (parse_linkedin_text text).current_company = "" := by
  by_cases ht : text = ""
  · subst ht; exact ⟨rfl, rfl⟩
  · have hd := dropToSub_none "## Experience".data text.data h2
    simp [parse_linkedin_text, ht, currentMatch, h1, hd, titleCompany]

/-- Witness for C6 at a short profile with no role headers at all. -/
theorem no_current_no_experience_witness :
    (parse_linkedin_text "John Doe\nStudent\nBerkeley, CA").current_title = "" ∧
    (parse_linkedin_text "John Doe\nStudent\nBerkeley, CA").current_company = "" :=
  no_current_no_experience "John Doe\nStudent\nBerkeley, CA"
    (by decide) (by decide)

/-! ## The batch driver (`main`, `init_remaining`, `write_remaining`) -/

/-- The three per-person outcomes of `search_linkedin` as seen by `main`:
an exception (caught and logged), no matching candidate (`url is None`),
or a found profile URL with optional profile text. -/
inductive Outcome where
  | error : String → Outcome
  | notFound : Outcome
  | found : String → Option String → Outcome

/-- One output CSV row (the `OUTPUT_FIELDS` columns). -/
structure OutRow where
  fullname : String
  email : String
  linkedin_url : String
  current_title : String
  current_company : String
  linkedin_headline : String
  location : String
  education : String
  bab_role : String
  bab_years : String
deriving DecidableEq

/-- `empty_row(fullname, email)`: all output fields empty except the
identity pair. -/
def empty_row (fullname email : String) : OutRow :=
  ⟨fullname, email, "", "", "", "", "", "", "", ""⟩

/-- `parse_linkedin_text` applied to a possibly-absent text (`None` and
`""` both hit the `if not text` early return). -/
def parse_opt : Option String → Parsed
  | none => parse_linkedin_text ""
  | some t => parse_linkedin_text t

/-- The body of `main`'s per-person loop: on success append the identity,
URL and parsed fields; on not-found or exception append `empty_row`.  The
`babweb` parameter stands for the `search_bab_web` collaborator, which the
driver has available but never calls. -/
def process_person (fullname email : String) (res : Outcome)
    (babweb : String → String × String) : OutRow :=
  match res with
  | .error _ => empty_row fullname email
  | .notFound => empty_row fullname email
  | .found url text =>
    let p := parse_opt text
    ⟨fullname, email, url, p.current_title, p.current_company,
      p.linkedin_headline, p.location, p.education, p.bab_role, p.bab_years⟩

/-- `BATCH_SIZE = 10`. -/
def BATCH_SIZE : Nat := 10

/-- The append loop over the batch: one output row per person, in order,
with `outcomes i` the search outcome of the `i`-th batch member. -/
def batch_outputs (outcomes : Nat → Outcome)
    (babweb : String → String × String) : List Row → Nat → List OutRow
  | [], _ => []
  | r :: rest, i =>
    process_person (pyStrip r.fullname) (pyStrip r.email) (outcomes i) babweb ::
      batch_outputs outcomes babweb rest (i + 1)

/-- One run of `main` over the pending rows: process `rows[:BATCH_SIZE]`
appending one row each, then rewrite the pending file with
`rows[BATCH_SIZE:]` (`write_remaining`). -/
def run_batch (rows : List Row) (outcomes : Nat → Outcome)
    (babweb : String → String × String) : List OutRow × List Row :=
  (batch_outputs outcomes babweb (rows.take BATCH_SIZE) 0,
    rows.drop BATCH_SIZE)

/-- `init_remaining()`: the first-run copy of `slack.csv` into
`remaining.csv`, keeping only rows whose stripped fullname is non-empty. -/
def init_remaining (rows : List Row) : List Row :=
  rows.filter (fun r => pyStrip r.fullname != "")

theorem batch_outputs_length (oc : Nat → Outcome)
    (bw : String → String × String) :
    ∀ (l : List Row) (i : Nat), (batch_outputs oc bw l i).length = l.length := by
  intro l
  induction l with
  | nil => intro i; rfl
  | cons r rest ih => intro i; simp [batch_outputs, ih]

theorem batch_outputs_getD (oc : Nat → Outcome)
    (bw : String → String × String) :
    ∀ (l : List Row) (i j : Nat), j < l.length →
      (batch_outputs oc bw l i).getD j (empty_row "" "") =
        process_person (pyStrip (l.getD j ⟨"", "", ""⟩).fullname)
          (pyStrip (l.getD j ⟨"", "", ""⟩).email) (oc (i + j)) bw := by
  intro l
  induction l with
  | nil => intro i j h; simp at h
  | cons r rest ih =>
    intro i j h
    cases j with
    | zero => simp only [batch_outputs, List.getD_cons_zero, Nat.add_zero]
    | succ j' =>
      have h' : j' < rest.length := by simpa using h
      have hrec := ih (i + 1) j' h'
      have hadd : i + (j' + 1) = i + 1 + j' := by omega
      simp only [batch_outputs, List.getD_cons_succ, hadd]
      exact hrec

theorem batch_outputs_mem (oc : Nat → Outcome)
    (bw : String → String × String) :
    ∀ (l : List Row) (i : Nat) (out : OutRow),
      out ∈ batch_outputs oc bw l i →
      ∃ r ∈ l, ∃ j, out =
        process_person (pyStrip r.fullname) (pyStrip r.email) (oc j) bw := by
  intro l
  induction l with
  | nil => intro i out h; simp [batch_outputs] at h
  | cons r rest ih =>
    intro i out h
    simp only [batch_outputs, List.mem_cons] at h
    rcases h with h | h
    · exact ⟨r, List.mem_cons_self r rest, i, h⟩
    · obtain ⟨r', hr', j, hj⟩ := ih (i + 1) out h
      exact ⟨r', List.mem_cons_of_mem r hr', j, hj⟩

theorem process_person_fullname (fn em : String) (res : Outcome)
    (bw : String → String × String) :
    (process_person fn em res bw).fullname = fn := by
  cases res <;> rfl

/-! ## Claim C1: one output row per batch person, pending count shrinks -/

/-- Claim C1: on a non-empty pending list, every batch person yields
exactly one output row, in order and without duplication (the `j`-th
output row is the processed `j`-th batch row); not-found and error
outcomes yield the empty-filled row; and the pending count afterwards is
`max 0 (previous - BATCH_SIZE)`. -/
theorem main_batch_invariant (rows : List Row) (outcomes : Nat → Outcome)
    (babweb : String → String × String) (hne : rows ≠ []) :
    ((run_batch rows outcomes babweb).1).length = min BATCH_SIZE rows.length ∧
    (∀ j, j < ((run_batch rows outcomes babweb).1).length →
      ((run_batch rows outcomes babweb).1).getD j (empty_row "" "") =
        process_person
          (pyStrip ((rows.take BATCH_SIZE).getD j ⟨"", "", ""⟩).fullname)
          (pyStrip ((rows.take BATCH_SIZE).getD j ⟨"", "", ""⟩).email)
          (outcomes j) babweb) ∧
    (∀ fn em msg, process_person fn em (.error msg) babweb = empty_row fn em) ∧
    (∀ fn em, process_person fn em .notFound babweb = empty_row fn em) ∧
    (((run_batch rows outcomes babweb).2).length : Int) =
      max 0 ((rows.length : Int) - (BATCH_SIZE : Int)) := by
  refine ⟨?_, ?_, fun fn em msg => rfl, fun fn em => rfl, ?_⟩
  · simp [run_batch, batch_outputs_length, List.length_take]
  · intro j hj
    have hlen : ((run_batch rows outcomes babweb).1).length =
        (rows.take BATCH_SIZE).length := by
      simp [run_batch, batch_outputs_length]
    rw [hlen] at hj
    have := batch_outputs_getD outcomes babweb (rows.take BATCH_SIZE) 0 j hj
    simpa [run_batch] using this
  · have := List.length_drop BATCH_SIZE rows
    simp only [run_batch, this]
    omega

/-- Witness for C1 at a single-row pending list. -/
theorem main_batch_invariant_witness :
    ((run_batch [⟨"Ada Lovelace", "ada@x.io", "ada"⟩]
        (fun _ => Outcome.notFound) (fun _ => ("", ""))).1).length =
      min BATCH_SIZE 1 :=
  (main_batch_invariant [⟨"Ada Lovelace", "ada@x.io", "ada"⟩]
    (fun _ => Outcome.notFound) (fun _ => ("", "")) (by simp)).1

/-! ## Claim C8: blank-name rows are filtered at initialization -/

/-- Claim C8: `init_remaining` keeps exactly the rows whose stripped
fullname is non-empty, so blank-name rows never enter the pending queue;
and every output row of a run over the initialized queue carries a
non-empty fullname, so blank-name roster rows never produce an output
record. -/
theorem init_remaining_filters_blank :
    (∀ (rows : List Row) (r : Row),
      r ∈ init_remaining rows → pyStrip r.fullname ≠ "") ∧
    (∀ (rows : List Row) (r : Row),
      pyStrip r.fullname = "" → r ∉ init_remaining rows) ∧
    (∀ (rows : List Row) (outcomes : Nat → Outcome)
        (babweb : String → String × String) (out : OutRow),
      out ∈ (run_batch (init_remaining rows) outcomes babweb).1 →
      out.fullname ≠ "") := by
  have hmem : ∀ (rows : List Row) (r : Row),
      r ∈ init_remaining rows → pyStrip r.fullname ≠ "" := by
    intro rows r hr
    have := (List.mem_filter.mp hr).2
    simpa using this
  refine ⟨hmem, ?_, ?_⟩
  · intro rows r hblank hr
    exact hmem rows r hr hblank
  · intro rows outcomes babweb out hout
    obtain ⟨r, hr, j, hj⟩ :=
      batch_outputs_mem outcomes babweb
        ((init_remaining rows).take BATCH_SIZE) 0 out hout
    have hr' : r ∈ init_remaining rows := List.take_subset _ _ hr
    have hne := hmem rows r hr'
    rw [hj, process_person_fullname]
    exact hne

/-- Witness for C8: a blank-name row is dropped, a named row is kept. -/
theorem init_remaining_filters_blank_witness :
    pyStrip (Row.mk "Bob" "b@x.io" "bob").fullname ≠ "" :=
  init_remaining_filters_blank.1
    [⟨"  ", "ghost@x.io", "ghost"⟩, ⟨"Bob", "b@x.io", "bob"⟩]
    ⟨"Bob", "b@x.io", "bob"⟩ (by decide)

/-! ## Claim C10: the secondary B@B web search is never invoked -/

/-- Claim C10: the per-person pipeline is independent of the
`search_bab_web` collaborator (it is never invoked, so its `"Member"`
default is unreachable), and whenever the B@B pattern finds no match in
the profile text — or there is no text at all — the output row's
`bab_role` and `bab_years` are empty. -/
theorem driver_ignores_bab_web :
    (∀ (fn em : String) (res : Outcome) (o1 o2 : String → String × String),
      process_person fn em res o1 = process_person fn em res o2) ∧
    (∀ (fn em url text : String) (bw : String → String × String),
      bab_findall text = [] →
        (process_person fn em (.found url (some text)) bw).bab_role = "" ∧
        (process_person fn em (.found url (some text)) bw).bab_years = "") ∧
    (∀ (fn em msg url : String) (bw : String → String × String),
      (process_person fn em (.error msg) bw).bab_role = "" ∧
      (process_person fn em .notFound bw).bab_role = "" ∧
      (process_person fn em (.found url none) bw).bab_role = "" ∧
      (process_person fn em (.error msg) bw).bab_years = "" ∧
      (process_person fn em .notFound bw).bab_years = "" ∧
      (process_person fn em (.found url none) bw).bab_years = "") := by
  refine ⟨fun fn em res o1 o2 => by cases res <;> rfl, ?_, ?_⟩
  · intro fn em url text bw h
    have hp := parse_bab_eq text
    rw [h] at hp
    simp only [process_person, parse_opt]
    exact ⟨by rw [hp.1]; rfl, by rw [hp.2]; rfl⟩
  · intro fn em msg url bw
    exact ⟨rfl, rfl, rfl, rfl, rfl, rfl⟩

/-- Witness for C10 on a text with no B@B tenure match. -/
theorem driver_ignores_bab_web_witness :
    (process_person "A" "a@x" (.found "u" (some "Jane Doe\nEngineer"))
        (fun _ => ("Member", ""))).bab_role = "" :=
  ((driver_ignores_bab_web.2.1) "A" "a@x" "u" "Jane Doe\nEngineer"
    (fun _ => ("Member", "")) (by decide)).1

/-! ## Claim C5: the follow-up content fetch of `search_linkedin` -/

/-- A search candidate as returned by the provider. -/
structure Cand where
  title : String
  url : String
  text : Option String
deriving DecidableEq

/-- A `get_contents` call's result: an exception, or a list of results
each with optional text. -/
inductive FetchRes where
  | exn : FetchRes
  | ok : List (Option String) → FetchRes
deriving DecidableEq

/-- The script's usability test on a `get_contents` result list:
`content.results and content.results[0].text and "## Experience" in
content.results[0].text` — a non-empty result list whose first text is
present, non-empty and contains the marker. -/
def usableRes : List (Option String) → Option String
  | some t :: _ =>
    if t != "" && isSubL "## Experience".data t.data then some t else none
  | _ => none

/-- The follow-up `for m in ([best] + ...)` loop of `search_linkedin`,
as written: the whole loop sits inside one `try/except`, so an exception
on ANY fetch abandons the remaining candidates and keeps the original
text, while an ok-but-unusable result moves on to the next candidate. -/
def followup_loop (fetch : String → FetchRes) (orig : String) :
    List Cand → String
  | [] => orig
  | c :: rest =>
    match fetch c.url with
    | .exn => orig
    | .ok results =>
      match usableRes results with
      | some t => t
      | none => followup_loop fetch orig rest

/-- The candidate order of the follow-up loop:
`[best] + [r for r in matches if r != best]`. -/
def followup_order (best : Cand) (cands : List Cand) : List Cand :=
  best :: cands.filter (fun r => r != best)

/-- The text component of `search_linkedin`'s return value: run the
follow-up loop only when the selected candidate has non-empty text lacking
the `"## Experience"` marker. -/
def search_text (best : Cand) (cands : List Cand)
    (fetch : String → FetchRes) : Option String :=
  match best.text with
  | none => none
  | some t =>
    if t != "" && !isSubL "## Experience".data t.data then
      some (followup_loop fetch t (followup_order best cands))
    else some t

/-- The follow-up loop as claim C5 describes it: on any individual fetch
failure silently CONTINUE to the next candidate, keeping the original text
only when every candidate fails. -/
def followup_loop_claimed (fetch : String → FetchRes) (orig : String) :
    List Cand → String
  | [] => orig
  | c :: rest =>
    match fetch c.url with
    | .exn => followup_loop_claimed fetch orig rest
    | .ok results =>
      match usableRes results with
      | some t => t
      | none => followup_loop_claimed fetch orig rest

/-- The usable text of a fetch outcome (none on exception). -/
def usableText : FetchRes → Option String
  | .exn => none
  | .ok rs => usableRes rs

/-- The fetch returned normally but without usable text. -/
def okUnusable : FetchRes → Bool
  | .exn => false
  | .ok rs => (usableRes rs).isNone

theorem followup_loop_skip (fetch : String → FetchRes) (orig : String) :
    ∀ (pre rest : List Cand),
      (∀ p ∈ pre, okUnusable (fetch p.url) = true) →
      followup_loop fetch orig (pre ++ rest) = followup_loop fetch orig rest := by
  intro pre
  induction pre with
  | nil => intro rest _; rfl
  | cons p pre' ih =>
    intro rest h
    have hp := h p (List.mem_cons_self p pre')
    have hrec := ih rest (fun q hq => h q (List.mem_cons_of_mem p hq))
    rcases hfp : fetch p.url with _ | rs
    · rw [hfp] at hp; simp [okUnusable] at hp
    · rw [hfp] at hp
      simp only [okUnusable, Option.isNone_iff_eq_none] at hp
      rw [List.cons_append]
      simp only [followup_loop, hfp, hp]
      exact hrec

/-- Counterexample to claim C5: with two matched candidates where fetching
the first raises and fetching the second would return marker-bearing text,
the code keeps the original truncated text (the exception aborts the whole
loop), while the claimed continue-on-failure behaviour would return the
second candidate's text. -/
theorem followup_exn_aborts_cex :
    search_text ⟨"A Person", "uA", some "partial text"⟩
        [⟨"A Person", "uA", some "partial text"⟩, ⟨"B Person", "uB", some "x"⟩]
        (fun u => if u == "uA" then .exn else .ok [some "## Experience full"]) =
      some "partial text" ∧
    followup_loop_claimed
        (fun u => if u == "uA" then .exn else .ok [some "## Experience full"])
        "partial text"
        (followup_order ⟨"A Person", "uA", some "partial text"⟩
          [⟨"A Person", "uA", some "partial text"⟩,
            ⟨"B Person", "uB", some "x"⟩]) =
      "## Experience full" ∧
    ("partial text" : String) ≠ "## Experience full" :=
  ⟨by decide, by decide, by decide⟩

/-- Claim C5 as amended: the follow-up fetches are attempted in order
(selected candidate first, then the other matched candidates), stopping at
the first fetch whose returned text contains the `"## Experience"` marker;
a fetch that RETURNS unusable content moves on to the next candidate, but
a fetch that RAISES silently aborts the whole follow-up and keeps the
original text, which is also kept when every candidate returns unusable
content. -/
theorem followup_loop_amended :
    (∀ (fetch : String → FetchRes) (orig : String) (pre post : List Cand)
        (c : Cand) (t : String),
      (∀ p ∈ pre, okUnusable (fetch p.url) = true) →
      usableText (fetch c.url) = some t →
      followup_loop fetch orig (pre ++ c :: post) = t) ∧
    (∀ (fetch : String → FetchRes) (orig : String) (pre post : List Cand)
        (c : Cand),
      (∀ p ∈ pre, okUnusable (fetch p.url) = true) →
      fetch c.url = .exn →
      followup_loop fetch orig (pre ++ c :: post) = orig) ∧
    (∀ (fetch : String → FetchRes) (orig : String) (cs : List Cand),
      (∀ p ∈ cs, okUnusable (fetch p.url) = true) →
      followup_loop fetch orig cs = orig) ∧
    (∀ (best : Cand) (cands : List Cand) (fetch : String → FetchRes)
        (t : String),
      best.text = some t →
      (t != "" && !isSubL "## Experience".data t.data) = true →
      search_text best cands fetch =
        some (followup_loop fetch t
          (best :: cands.filter (fun r => r != best)))) := by
  refine ⟨?_, ?_, ?_, ?_⟩
  · intro fetch orig pre post c t hpre hc
    rw [followup_loop_skip fetch orig pre (c :: post) hpre]
    rcases hfc : fetch c.url with _ | rs
    · rw [hfc] at hc; simp [usableText] at hc
    · rw [hfc] at hc
      simp only [usableText] at hc
      simp only [followup_loop, hfc, hc]
  · intro fetch orig pre post c hpre hc
    rw [followup_loop_skip fetch orig pre (c :: post) hpre]
    simp only [followup_loop, hc]
  · intro fetch orig cs h
    have := followup_loop_skip fetch orig cs [] h
    simpa using this
  · intro best cands fetch t hbt hcond
    simp [search_text, hbt, hcond, followup_order]

/-- Witness for the amended C5: an unusable first fetch is skipped and the
second candidate's marker-bearing text is taken. -/
theorem followup_loop_amended_witness :
    followup_loop
        (fun u => if u == "u1" then .ok [] else .ok [some "## Experience deep"])
        "orig text"
        [⟨"P One", "u1", none⟩, ⟨"P Two", "u2", none⟩] =
      "## Experience deep" :=
  followup_loop_amended.1
    (fun u => if u == "u1" then .ok [] else .ok [some "## Experience deep"])
    "orig text" [⟨"P One", "u1", none⟩] [] ⟨"P Two", "u2", none⟩
    "## Experience deep" (by decide) (by decide)

/-- Instance check for C2's equivalence at a concrete name, title and URL
(surname found in the URL slug only). -/
theorem name_matches_iff_spec_witness :
    matcher_spec "Ashvin Nihalani" "Ashvin N. - Student" "linkedin.com/in/ashvinnihalani" :=
  (name_matches_iff_spec "Ashvin Nihalani" "Ashvin N. - Student"
    "linkedin.com/in/ashvinnihalani").mp (by decide)
